import Mathlib

set_option maxRecDepth 4000

/- Shallow embedding of src/src/service/session.py (easevoice-trainer).

   Machine-level conventions:
   * Python dicts that hold job records keyed by uuid are modelled as
     association lists `List (String × α)`; insertion order of the dict is
     never observed by the code, so `alInsert` is free to normalise positions.
   * The reserved "monitor_metrics" key that `get_session_info` writes into
     `session_list` is modelled as a separate `metricsEntry` field of the
     same registry (job ids are caller-assigned opaque tokens distinct from
     the reserved key, per the data model).
   * Fallible Python code (statements that can raise `KeyError` /
     `RuntimeError`) is modelled with `Except String`; a `raise` before any
     mutation yields an `.error` carrying the message, and the caller keeps
     the pre-call state (CPython leaves the shared object untouched when the
     raise occurs before any assignment).
   * External effects (datetime.now, psutil / torch metric reads, task
     cancellation, process signalling, subprocess spawning) are modelled as
     explicit input parameters or as no-ops on the manager state. -/

inductive Status
  | running
  | completed
  | failed
deriving DecidableEq

inductive RStatus
  | success
  | failed
deriving DecidableEq

/-- EaseVoiceResponse (src/utils/response): status, message, optional data.
    `data` defaults to the empty list, standing for Python `None`/`{}` (both
    falsy under `if result.data and len(result.data) > 0`). -/
structure EVResponse where
  status : RStatus
  message : String
  data : List (String × String) := []
deriving DecidableEq

/-- One job record of `session_list` (the dict literal built at
    session.py:83-90, extended by the finalizers and updaters). Fields the
    dict acquires only later in its life are `Option`/default-valued. -/
structure SessionRecord where
  uuid : String
  task_name : String
  request : Option (List (String × String))
  status : Status
  created_at : String
  error : Option String
  message : Option String := none
  result : Option String := none
  data : List (String × String) := []
  losses : List Int := []
  extra : List (String × String) := []
deriving DecidableEq

/-- The dict built by `_inject_monitor_metrics` (session.py:199-208); its
    values come from psutil/torch reads, supplied here as an input. -/
structure MonitorMetrics where
  cpu_percentage : String
  gpu_percentage : Option String := none
  memory_allocated_percentage : Option String := none
deriving DecidableEq

/-- `session_list`: the job records keyed by uuid, plus the reserved
    "monitor_metrics" key that `get_session_info` merges into the same dict. -/
structure Registry where
  records : List (String × SessionRecord)
  metricsEntry : Option MonitorMetrics
deriving DecidableEq

/-- The mutable attributes of the SessionManager singleton
    (session.py:40-47). Task handles and subprocess pids are opaque `Nat`s. -/
structure SMState where
  session_list : Registry
  session_uuids : List String
  session_task : List (String × Nat)
  session_subprocess : List (String × Nat)
  exist_session : Option String
  last_runned_session : Option String
deriving DecidableEq

/-- State of the freshly constructed singleton (session.py:49-61). -/
def initState : SMState :=
  { session_list := { records := [], metricsEntry := none },
    session_uuids := [], session_task := [], session_subprocess := [],
    exist_session := none, last_runned_session := none }

def alGet {α : Type} : List (String × α) → String → Option α
  | [], _ => none
  | p :: t, k => if p.1 = k then some p.2 else alGet t k

def alErase {α : Type} : List (String × α) → String → List (String × α)
  | [], _ => []
  | p :: t, k => if p.1 = k then alErase t k else p :: alErase t k

def alInsert {α : Type} (l : List (String × α)) (k : String) (v : α) : List (String × α) :=
  alErase l k ++ [(k, v)]

def MAX_SESSIONS : Nat := 10

def MAX_LOSS : Nat := 50

/-- One iteration of the `while` body of `_check_session_limit`
    (session.py:64-70): pop `session_uuids[1]` when the head is the running
    session, else pop `session_uuids[0]`, and drop the record of that uuid.
    The `[]`/singleton fallthroughs are unreachable while the loop guard
    `len > MAX_SESSIONS` holds. -/
def evictOnce (s : SMState) : SMState :=
  match s.session_uuids with
  | [] => s
  | u0 :: rest =>
    if s.exist_session = some u0 then
      match rest with
      | [] => s
      | u1 :: rest2 =>
        { s with session_uuids := u0 :: rest2,
                 session_list := { s.session_list with
                    records := alErase s.session_list.records u1 } }
    else
      { s with session_uuids := rest,
               session_list := { s.session_list with
                  records := alErase s.session_list.records u0 } }

/-- Fuel-indexed unrolling of the `while len(session_uuids) > MAX_SESSIONS`
    loop; each iteration under the guard removes exactly one uuid, so fuel
    equal to the initial length always suffices. -/
def checkSessionLimitGo : Nat → SMState → SMState
  | 0, s => s
  | n + 1, s =>
    if s.session_uuids.length > MAX_SESSIONS then checkSessionLimitGo n (evictOnce s)
    else s

/-- `SessionManager._check_session_limit` (session.py:63-70). -/
def check_session_limit (s : SMState) : SMState :=
  checkSessionLimitGo s.session_uuids.length s

/-- The mutation suffix of `start_session` (session.py:80-93), executed only
    after the exist_session guard has passed: store the Running record,
    append the uuid, apply the eviction policy, set the current pointer. -/
def commitStart (s : SMState) (uuid task_name : String)
    (request : Option (List (String × String))) (now : String) : SMState :=
  let record : SessionRecord :=
    { uuid := uuid, task_name := task_name, request := request,
      status := .running, created_at := now, error := none }
  let s1 := { s with
    session_list := { s.session_list with
      records := alInsert s.session_list.records uuid record },
    session_uuids := s.session_uuids ++ [uuid] }
  let s2 := check_session_limit s1
  { s2 with exist_session := some uuid }

/-- `SessionManager.start_session` (session.py:72-93): raises (before any
    mutation) when a session is already running. -/
def start_session (s : SMState) (uuid task_name : String)
    (request : Option (List (String × String))) (now : String) :
    Except String SMState :=
  if s.exist_session.isSome then
    .error "A task is already running. Cannot submit another task!"
  else
    .ok (commitStart s uuid task_name request now)

/-- The manager state observed after a `start_session` call returns or
    raises: a raise leaves the shared singleton untouched. -/
def start_session_state (s : SMState) (uuid task_name : String)
    (request : Option (List (String × String))) (now : String) : SMState :=
  match start_session s uuid task_name request now with
  | .ok s1 => s1
  | .error _ => s

/-- `SessionManager.end_session` (session.py:117-127). -/
def end_session (s : SMState) (uuid : String) (result : String) : SMState :=
  let s1 :=
    match alGet s.session_list.records uuid with
    | some r =>
      { s with session_list := { s.session_list with
          records := alInsert s.session_list.records uuid
            { r with status := .completed, result := some result } } }
    | none => s
  if s1.exist_session = some uuid then
    { s1 with exist_session := none, last_runned_session := some uuid }
  else s1

/-- `SessionManager.end_session_with_ease_voice_response` (session.py:129-146). -/
def end_session_with_ease_voice_response (s : SMState) (uuid : String)
    (result : EVResponse) : SMState :=
  let s1 :=
    match alGet s.session_list.records uuid with
    | some r =>
      let r1 :=
        if result.status = RStatus.success then
          { r with status := .completed, message := some result.message }
        else
          { r with status := .failed, message := some result.message,
                   error := some result.message }
      let r2 := if result.data.length > 0 then { r1 with data := result.data } else r1
      { s with session_list := { s.session_list with
          records := alInsert s.session_list.records uuid r2 } }
    | none => s
  if s1.exist_session = some uuid then
    { s1 with exist_session := none, last_runned_session := some uuid }
  else s1

/-- `SessionManager.fail_session` (session.py:148-158). -/
def fail_session (s : SMState) (uuid : String) (error : String) : SMState :=
  let s1 :=
    match alGet s.session_list.records uuid with
    | some r =>
      { s with session_list := { s.session_list with
          records := alInsert s.session_list.records uuid
            { r with status := .failed, error := some error } } }
    | none => s
  if s1.exist_session = some uuid then
    { s1 with exist_session := none, last_runned_session := some uuid }
  else s1

/-- `SessionManager.update_session_info` (session.py:160-164):
    `self.session_list[uuid]` raises `KeyError` when the uuid is absent;
    a stored record dict is never empty, so the `RuntimeError` branch for a
    falsy record is unreachable. Worker-supplied keys land in `extra`. -/
def update_session_info (s : SMState) (uuid : String)
    (info : List (String × String)) : Except String SMState :=
  match alGet s.session_list.records uuid with
  | none => .error ("KeyError: " ++ uuid)
  | some r =>
    .ok { s with session_list := { s.session_list with
        records := alInsert s.session_list.records uuid
          { r with extra := info.foldl (fun acc p => alInsert acc p.1 p.2) r.extra } } }

/-- `SessionManager.update_session_loss` (session.py:166-173): append the
    sample, then `pop(0)` once when the length exceeds MAX_LOSS. -/
def update_session_loss (s : SMState) (uuid : String) (loss : Int) :
    Except String SMState :=
  match alGet s.session_list.records uuid with
  | none => .error ("KeyError: " ++ uuid)
  | some r =>
    let ls := r.losses ++ [loss]
    let ls2 := if ls.length > MAX_LOSS then ls.tail else ls
    .ok { s with session_list := { s.session_list with
        records := alInsert s.session_list.records uuid { r with losses := ls2 } } }

/-- `SessionManager.get_session_info` (session.py:175-178): merge the live
    metrics into `session_list` under the reserved key and return that very
    dict (the returned mapping is the registry stored in the new state). -/
def get_session_info (s : SMState) (m : MonitorMetrics) : Registry × SMState :=
  let reg := { s.session_list with metricsEntry := some m }
  (reg, { s with session_list := reg })

/-- `SessionManager.exist_running_session` (session.py:180-182). -/
def exist_running_session (s : SMState) : Bool :=
  s.exist_session.isSome

/-- Shape of the dict returned by `get_current_session_info`: the metrics
    entry merged (`metrics.update(session)`) with the looked-up record;
    `record = none` is the `{}` default (no record fields merged). -/
structure CurrentInfo where
  monitor_metrics : Option MonitorMetrics
  record : Option SessionRecord
deriving DecidableEq

/-- `SessionManager.get_current_session_info` (session.py:184-197). -/
def get_current_session_info (s : SMState) (m : MonitorMetrics) : CurrentInfo :=
  match s.exist_session with
  | some u => { monitor_metrics := some m, record := alGet s.session_list.records u }
  | none =>
    match s.last_runned_session with
    | some u => { monitor_metrics := some m, record := alGet s.session_list.records u }
    | none => { monitor_metrics := none, record := none }

/-- `SessionManager.add_session_task` (session.py:95-96). -/
def add_session_task (s : SMState) (uuid : String) (task : Nat) : SMState :=
  { s with session_task := alInsert s.session_task uuid task }

/-- `SessionManager.get_session_task` (session.py:98-99). -/
def get_session_task (s : SMState) (uuid : String) : Option Nat :=
  alGet s.session_task uuid

/-- `SessionManager.remove_session_task` (session.py:101-102):
    `self.session_task.pop(uuid)` has no default, so a missing key raises
    `KeyError`. -/
def remove_session_task (s : SMState) (uuid : String) : Except String SMState :=
  match alGet s.session_task uuid with
  | some _ => .ok { s with session_task := alErase s.session_task uuid }
  | none => .error ("KeyError: " ++ uuid)

/-- `SessionManager.add_session_subprocess` (session.py:104-105). -/
def add_session_subprocess (s : SMState) (uuid : String) (pid : Nat) : SMState :=
  { s with session_subprocess := alInsert s.session_subprocess uuid pid }

/-- `SessionManager.remove_session_subprocess` (session.py:107-112):
    membership-guarded, never raises. -/
def remove_session_subprocess (s : SMState) (uuid : String) : SMState :=
  if (alGet s.session_subprocess uuid).isSome then
    { s with session_subprocess := alErase s.session_subprocess uuid }
  else s

/-- `SessionManager.get_session_subprocess` (session.py:114-115). -/
def get_session_subprocess (s : SMState) (uuid : String) : Option Nat :=
  alGet s.session_subprocess uuid

/- Job Runner (module-level functions of session.py). A work callable is
   modelled as a state transformer returning the manager state it leaves
   behind together with `some e` when it raises exception text `e`. -/

/-- The `wrapper` closure inside `backtask_with_session_guard`
    (session.py:221-228): run `func`; on a raise call
    `fail_session(uuid, str(e))`; in the `finally` block (both paths) call
    `remove_session_subprocess(uuid)`. -/
def wrapper (uuid : String) (func : SMState → SMState × Option String)
    (s : SMState) : SMState :=
  match func s with
  | (s1, some e) => remove_session_subprocess (fail_session s1 uuid e) uuid
  | (s1, none) => remove_session_subprocess s1 uuid

/-- `backtask_with_session_guard` (session.py:214-231): admit, converting an
    admission failure into the HTTP 409 conflict detail; on success the
    spawned thread runs `wrapper` to completion (sequentialised here). -/
def backtask_with_session_guard (s : SMState) (uuid task_name : String)
    (request_params : Option (List (String × String))) (now : String)
    (func : SMState → SMState × Option String) : Except String SMState :=
  match start_session s uuid task_name request_params now with
  | .error _ => .error "There is an another task running."
  | .ok s1 => .ok (wrapper uuid func s1)

/-- The three message kinds of the progress stream
    (ConnectorDataType RESP / SESSION_DATA / LOSS). -/
inductive ConnectorData
  | resp (r : EVResponse)
  | sessionData (info : List (String × String))
  | loss (l : Int)
deriving DecidableEq

def isResp : ConnectorData → Bool
  | .resp _ => true
  | _ => false

/-- Modelled from the spec: `MultiProcessOutputConnector.read_data`
    (src/utils/helper/connector.py, not part of the provided sources) —
    "Consumption is sequential ...; it terminates when the source stream
    closes (worker exit) or a final-response message is observed, whichever
    comes first." Given the full message stream of the worker, it yields the
    prefix up to and including the first final-response message, or the
    whole stream when the source closes without one. -/
def read_data : List ConnectorData → List ConnectorData
  | [] => []
  | d :: rest => if isResp d then [d] else d :: read_data rest

/-- The dispatch body of the `for data in connector.read_data(proc)` loop
    (session.py:247-253). -/
def dispatch (uid : String) (s : SMState) (d : ConnectorData) :
    Except String SMState :=
  match d with
  | .resp r => .ok (end_session_with_ease_voice_response s uid r)
  | .sessionData info => update_session_info s uid info
  | .loss l => update_session_loss s uid l

/-- Sequential consumption of an already-produced message list, propagating
    any raise out of the loop. -/
def ingestLoop (uid : String) (s : SMState) : List ConnectorData → Except String SMState
  | [] => .ok s
  | d :: rest =>
    match dispatch uid s d with
    | .ok s1 => ingestLoop uid s1 rest
    | .error e => .error e

/-- `start_task_with_subprocess` (session.py:234-253): register the spawned
    pid of the spawned worker, then consume the connector message sequence. The
    tempfile/Popen plumbing is external; `stream` is the message sequence
    the worker would produce. -/
def start_task_with_subprocess (s : SMState) (uid : String) (pid : Nat)
    (stream : List ConnectorData) : Except String SMState :=
  let s1 := add_session_subprocess s uid pid
  ingestLoop uid s1 (read_data stream)

def registryEmpty (r : Registry) : Bool :=
  r.records.isEmpty && r.metricsEntry.isNone

/-- `_check_session` (session.py:256-269). Note `get_session_info` always
    installs the `monitor_metrics` key first, so the returned dict is never
    falsy and the "No active task to stop." branch is unreachable. -/
def check_session (s : SMState) (m : MonitorMetrics) (uid task_name : String) :
    Except String (Option EVResponse × SMState) :=
  let p := get_session_info s m
  let info := p.1
  let s1 := p.2
  if registryEmpty info then
    let resp : EVResponse := { status := .failed, message := "No active task to stop." }
    let s2 := end_session_with_ease_voice_response s1 uid resp
    match remove_session_task s2 uid with
    | .ok s3 => .ok (some resp, s3)
    | .error e => .error e
  else
    let kindOk : Bool :=
      match alGet info.records uid with
      | some r => decide (r.task_name = task_name ∧ r.status = Status.running)
      | none => false
    if kindOk then .ok (none, s1)
    else
      let resp : EVResponse := { status := .failed, message := "Task name does not match." }
      let s2 := end_session_with_ease_voice_response s1 uid resp
      match remove_session_task s2 uid with
      | .ok s3 => .ok (some resp, s3)
      | .error e => .error e

/-- `async_stop_session` (session.py:272-289). `task.cancel()` is an effect
    on the asyncio task, not on the manager state. -/
def async_stop_session (s : SMState) (m : MonitorMetrics) (uuid task_name : String) :
    Except String (EVResponse × SMState) :=
  match check_session s m uuid task_name with
  | .error e => .error e
  | .ok (some resp, s1) => .ok (resp, s1)
  | .ok (none, s1) =>
    match get_session_task s1 uuid with
    | some _ =>
      match remove_session_task s1 uuid with
      | .error e => .error e
      | .ok s2 =>
        let resp : EVResponse := { status := .success, message := "Task stopped by user." }
        .ok (resp, end_session_with_ease_voice_response s2 uuid resp)
    | none =>
      let resp : EVResponse := { status := .failed, message := "No task to stop." }
      let s2 := end_session_with_ease_voice_response s1 uuid resp
      match remove_session_task s2 uuid with
      | .error e => .error e
      | .ok s3 => .ok (resp, s3)

/-- `stop_task_with_subprocess` (session.py:292-306). `if pid:` is Python
    truthiness, false for pid 0; `_kill_proc_tree` only signals processes. -/
def stop_task_with_subprocess (s : SMState) (m : MonitorMetrics)
    (uuid task_name : String) : Except String (EVResponse × SMState) :=
  match check_session s m uuid task_name with
  | .error e => .error e
  | .ok (some resp, s1) => .ok (resp, s1)
  | .ok (none, s1) =>
    let stopIt : Bool :=
      match get_session_subprocess s1 uuid with
      | some pid => decide (pid ≠ 0)
      | none => false
    if stopIt then
      let s2 := remove_session_subprocess s1 uuid
      let resp : EVResponse := { status := .success, message := "Task stopped by user." }
      .ok (resp, end_session_with_ease_voice_response s2 uuid resp)
    else
      let resp : EVResponse := { status := .failed, message := "No task to stop." }
      .ok (resp, end_session_with_ease_voice_response s1 uuid resp)

/- Interleaving model of concurrent `start_session` calls. `start_session`
   takes no lock (the class `_lock` is used only inside `__new__`), so a
   thread switch may occur between the `exist_session is not None` guard
   (session.py:75) and the mutation suffix (session.py:80-93). Each thread is
   reduced to those two atomic steps; this under-approximates the possible
   switch points, so every behaviour of this model is a behaviour of the
   code. -/

structure AdmitThread where
  uuid : String
  task_name : String
  request : Option (List (String × String))
  now : String
  passedCheck : Bool := false
  /-- `some true`: returned normally; `some false`: raised AlreadyRunning. -/
  result : Option Bool := none
deriving DecidableEq

/-- Run one thread for one step against the shared manager state. -/
def admitThreadStep (t : AdmitThread) (s : SMState) : AdmitThread × SMState :=
  if t.result.isSome then (t, s)
  else if t.passedCheck = false then
    if s.exist_session.isSome then ({ t with result := some false }, s)
    else ({ t with passedCheck := true }, s)
  else
    ({ t with result := some true }, commitStart s t.uuid t.task_name t.request t.now)

structure AdmitRace where
  t1 : AdmitThread
  t2 : AdmitThread
  state : SMState
deriving DecidableEq

def raceStep (r : AdmitRace) (who : Bool) : AdmitRace :=
  if who then
    let p := admitThreadStep r.t1 r.state
    { r with t1 := p.1, state := p.2 }
  else
    let p := admitThreadStep r.t2 r.state
    { r with t2 := p.1, state := p.2 }

/-- Run two concurrent admission attempts under a schedule (`true` steps
    thread 1, `false` steps thread 2). -/
def runRace (r : AdmitRace) (sched : List Bool) : AdmitRace :=
  sched.foldl raceStep r

/-- Status of the record stored under `u`, if any. -/
def statusAt (s : SMState) (u : String) : Option Status :=
  (alGet s.session_list.records u).map (fun r => r.status)

/-- Loss history of the record stored under `u`, if any. -/
def lossesAt (s : SMState) (u : String) : Option (List Int) :=
  (alGet s.session_list.records u).map (fun r => r.losses)

/-- Iterated `update_session_loss`, as performed by a stream of LOSS
    messages. -/
def appendLosses (s : SMState) (u : String) : List Int → Except String SMState
  | [] => .ok s
  | l :: rest =>
    match update_session_loss s u l with
    | .ok s1 => appendLosses s1 u rest
    | .error e => .error e

/-- The pure effect of one `update_session_loss` step on the loss list. -/
def lossStep (ls : List Int) (l : Int) : List Int :=
  let ls1 := ls ++ [l]
  if ls1.length > MAX_LOSS then ls1.tail else ls1

/- Registry well-formedness and reachability. -/

def keysOf (s : SMState) : List String := s.session_list.records.map Prod.fst

/-- Structural invariant of the manager: the retained uuid list has no
    duplicates (job ids are caller-assigned unique tokens, per the data
    model), the record keys are exactly the retained uuids, the retained
    list respects the capacity, and the current pointer names a retained
    uuid. -/
structure WF (s : SMState) : Prop where
  nodup : s.session_uuids.Nodup
  perm : (keysOf s).Perm s.session_uuids
  bound : s.session_uuids.length ≤ MAX_SESSIONS
  exist_mem : ∀ u, s.exist_session = some u → u ∈ s.session_uuids

/-- States reachable by any interleaving-free sequence of SessionManager
    operations, starting from the freshly constructed singleton. Only the
    primitive mutators appear: the module-level functions
    (`backtask_with_session_guard`, `start_task_with_subprocess`,
    `_check_session`, the stop functions) are compositions of these.
    A failed `start_session` raises before mutating, so only the successful
    commit appears; job ids are caller-assigned unique tokens, hence the
    freshness hypothesis on `start`. -/
inductive Reachable : SMState → Prop where
  | init : Reachable initState
  | start (s : SMState) (uuid task_name : String)
      (request : Option (List (String × String))) (now : String) :
      Reachable s → s.exist_session = none → uuid ∉ s.session_uuids →
      Reachable (commitStart s uuid task_name request now)
  | endS (s : SMState) (uuid result : String) :
      Reachable s → Reachable (end_session s uuid result)
  | endR (s : SMState) (uuid : String) (r : EVResponse) :
      Reachable s → Reachable (end_session_with_ease_voice_response s uuid r)
  | failS (s : SMState) (uuid error : String) :
      Reachable s → Reachable (fail_session s uuid error)
  | updInfo (s : SMState) (uuid : String) (info : List (String × String))
      (s1 : SMState) :
      Reachable s → update_session_info s uuid info = .ok s1 → Reachable s1
  | updLoss (s : SMState) (uuid : String) (l : Int) (s1 : SMState) :
      Reachable s → update_session_loss s uuid l = .ok s1 → Reachable s1
  | getInfo (s : SMState) (m : MonitorMetrics) :
      Reachable s → Reachable (get_session_info s m).2
  | addTask (s : SMState) (uuid : String) (t : Nat) :
      Reachable s → Reachable (add_session_task s uuid t)
  | remTask (s : SMState) (uuid : String) (s1 : SMState) :
      Reachable s → remove_session_task s uuid = .ok s1 → Reachable s1
  | addSub (s : SMState) (uuid : String) (pid : Nat) :
      Reachable s → Reachable (add_session_subprocess s uuid pid)
  | remSub (s : SMState) (uuid : String) :
      Reachable s → Reachable (remove_session_subprocess s uuid)

/- Association-list lemmas. -/

theorem alGet_insert_self {α : Type} (l : List (String × α)) (k : String) (v : α) :
    alGet (alInsert l k v) k = some v := by
  induction l with
  | nil => simp [alInsert, alErase, alGet]
  | cons p t ih =>
    by_cases h : p.1 = k
    · simpa [alInsert, alErase, h] using ih
    · simpa [alInsert, alErase, alGet, h] using ih

theorem alGet_insert_ne {α : Type} (l : List (String × α)) (k k2 : String) (v : α)
    (h : k2 ≠ k) : alGet (alInsert l k v) k2 = alGet l k2 := by
  have hk : ¬ k = k2 := fun hc => h hc.symm
  induction l with
  | nil => simp [alInsert, alErase, alGet, hk]
  | cons p t ih =>
    by_cases hp : p.1 = k
    · have hp2 : ¬ p.1 = k2 := by rw [hp]; exact hk
      simpa [alInsert, alErase, alGet, hp, hp2, hk] using ih
    · by_cases hq : p.1 = k2
      · simp [alInsert, alErase, alGet, hp, hq, h, hk]
      · simpa [alInsert, alErase, alGet, hp, hq] using ih

theorem alGet_erase_self {α : Type} (l : List (String × α)) (k : String) :
    alGet (alErase l k) k = none := by
  induction l with
  | nil => rfl
  | cons p t ih =>
    by_cases h : p.1 = k
    · simpa [alErase, h] using ih
    · simpa [alErase, alGet, h] using ih

theorem alGet_erase_ne {α : Type} (l : List (String × α)) (k k2 : String)
    (h : k2 ≠ k) : alGet (alErase l k) k2 = alGet l k2 := by
  have hk : ¬ k = k2 := fun hc => h hc.symm
  induction l with
  | nil => rfl
  | cons p t ih =>
    by_cases hp : p.1 = k
    · have hp2 : ¬ p.1 = k2 := by rw [hp]; exact hk
      simpa [alErase, alGet, hp, hp2, hk] using ih
    · by_cases hq : p.1 = k2
      · simp [alErase, alGet, hp, hq, h, hk]
      · simpa [alErase, alGet, hp, hq] using ih

theorem alErase_of_not_mem {α : Type} (l : List (String × α)) (k : String)
    (h : k ∉ l.map Prod.fst) : alErase l k = l := by
  induction l with
  | nil => rfl
  | cons p t ih =>
    simp only [List.map_cons, List.mem_cons] at h
    push_neg at h
    have hp : ¬ p.1 = k := fun hc => h.1 hc.symm
    simp [alErase, hp, ih h.2]

theorem alGet_isSome_iff {α : Type} (l : List (String × α)) (k : String) :
    (alGet l k).isSome ↔ k ∈ l.map Prod.fst := by
  induction l with
  | nil => simp [alGet]
  | cons p t ih =>
    by_cases h : p.1 = k
    · simp [alGet, h]
    · have h2 : ¬ k = p.1 := fun hc => h hc.symm
      simp only [alGet, if_neg h, List.map_cons, List.mem_cons]
      rw [ih]
      simp [h2]

theorem keys_alErase_of_nodup {α : Type} (l : List (String × α)) (k : String)
    (h : (l.map Prod.fst).Nodup) :
    (alErase l k).map Prod.fst = (l.map Prod.fst).erase k := by
  induction l with
  | nil => rfl
  | cons p t ih =>
    simp only [List.map_cons, List.nodup_cons] at h
    by_cases hp : p.1 = k
    · subst hp
      simp [alErase, alErase_of_not_mem t p.1 h.1, List.erase_cons_head]
    · have he : (p.1 :: t.map Prod.fst).erase k = p.1 :: (t.map Prod.fst).erase k := by
        rw [List.erase_cons_tail]
        simp [hp]
      simp [alErase, hp, ih h.2, he]

theorem keys_alInsert_of_not_mem {α : Type} (l : List (String × α)) (k : String) (v : α)
    (h : k ∉ l.map Prod.fst) :
    (alInsert l k v).map Prod.fst = l.map Prod.fst ++ [k] := by
  simp [alInsert, alErase_of_not_mem l k h]

theorem keys_alInsert_perm_of_mem {α : Type} (l : List (String × α)) (k : String) (v : α)
    (hnd : (l.map Prod.fst).Nodup) (hm : k ∈ l.map Prod.fst) :
    ((alInsert l k v).map Prod.fst).Perm (l.map Prod.fst) := by
  have h1 : (alInsert l k v).map Prod.fst = (l.map Prod.fst).erase k ++ [k] := by
    simp [alInsert, keys_alErase_of_nodup l k hnd]
  have h2 : ((l.map Prod.fst).erase k ++ [k]).Perm (k :: (l.map Prod.fst).erase k) :=
    List.perm_append_singleton _ _
  have h3 : (k :: (l.map Prod.fst).erase k).Perm (l.map Prod.fst) :=
    (List.perm_cons_erase hm).symm
  rw [h1]
  exact h2.trans h3

/- Lemmas about the eviction loop. -/

theorem cslGo_of_le (n : Nat) (s : SMState)
    (h : s.session_uuids.length ≤ MAX_SESSIONS) : checkSessionLimitGo n s = s := by
  cases n with
  | zero => rfl
  | succ m => simp [checkSessionLimitGo, Nat.not_lt.mpr h]

theorem check_session_limit_of_le (s : SMState)
    (h : s.session_uuids.length ≤ MAX_SESSIONS) : check_session_limit s = s :=
  cslGo_of_le _ s h

theorem evictOnce_of_none (s : SMState) (u0 : String) (rest : List String)
    (hex : s.exist_session = none) (hl : s.session_uuids = u0 :: rest) :
    evictOnce s =
      { s with session_uuids := rest,
               session_list := { s.session_list with
                  records := alErase s.session_list.records u0 } } := by
  have hne : ¬ s.exist_session = some u0 := by rw [hex]; intro hc; cases hc
  simp [evictOnce, hl, hne]

theorem check_session_limit_eleven_none (s : SMState)
    (hex : s.exist_session = none)
    (hl : s.session_uuids.length = MAX_SESSIONS + 1) :
    check_session_limit s = evictOnce s := by
  obtain ⟨u0, rest, hcons⟩ : ∃ u0 rest, s.session_uuids = u0 :: rest := by
    cases hu : s.session_uuids with
    | nil => rw [hu] at hl; cases hl
    | cons a t => exact ⟨a, t, rfl⟩
  have hev := evictOnce_of_none s u0 rest hex hcons
  have hrest : rest.length = MAX_SESSIONS := by
    rw [hcons] at hl
    simpa using hl
  have hgt : s.session_uuids.length > MAX_SESSIONS := by omega
  have hlen2 : (evictOnce s).session_uuids.length ≤ MAX_SESSIONS := by
    rw [hev]
    simpa using Nat.le_of_eq hrest
  unfold check_session_limit
  rw [hl]
  have h1 : checkSessionLimitGo (MAX_SESSIONS + 1) s =
      if s.session_uuids.length > MAX_SESSIONS then
        checkSessionLimitGo MAX_SESSIONS (evictOnce s)
      else s := rfl
  rw [h1, if_pos hgt]
  exact cslGo_of_le MAX_SESSIONS (evictOnce s) hlen2

/-- The eviction loop never touches `exist_session`, never drops the running
    uuid from the retained list, and never drops its record — for any state
    whose uuid list has no duplicates. -/
theorem cslGo_preserves_running (n : Nat) :
    ∀ s u, s.exist_session = some u → u ∈ s.session_uuids →
    s.session_uuids.Nodup →
    (checkSessionLimitGo n s).exist_session = some u ∧
    u ∈ (checkSessionLimitGo n s).session_uuids ∧
    alGet (checkSessionLimitGo n s).session_list.records u =
      alGet s.session_list.records u ∧
    (checkSessionLimitGo n s).session_uuids.Nodup := by
  induction n with
  | zero => intro s u hex hm hnd; exact ⟨hex, hm, rfl, hnd⟩
  | succ m ih =>
    intro s u hex hm hnd
    by_cases hlen : s.session_uuids.length > MAX_SESSIONS
    · have hstep :
        (evictOnce s).exist_session = some u ∧
        u ∈ (evictOnce s).session_uuids ∧
        alGet (evictOnce s).session_list.records u = alGet s.session_list.records u ∧
        (evictOnce s).session_uuids.Nodup := by
        cases hu : s.session_uuids with
        | nil => rw [hu] at hlen; simp [MAX_SESSIONS] at hlen
        | cons u0 rest =>
          by_cases h0 : u = u0
          · subst h0
            have hsome : s.exist_session = some u := hex
            cases hr : rest with
            | nil =>
              rw [hu, hr] at hlen
              simp [MAX_SESSIONS] at hlen
            | cons u1 rest2 =>
              have hnd2 : (u :: u1 :: rest2).Nodup := by rw [hu, hr] at hnd; exact hnd
              have hu1 : u ≠ u1 := by
                have := (List.nodup_cons.mp hnd2).1
                intro hc; exact this (hc ▸ List.mem_cons_self u1 rest2)
              have hev : evictOnce s =
                  { s with session_uuids := u :: rest2,
                           session_list := { s.session_list with
                              records := alErase s.session_list.records u1 } } := by
                simp [evictOnce, hu, hr, hsome]
              rw [hev]
              refine ⟨hex, List.mem_cons_self _ _, alGet_erase_ne _ u1 u hu1, ?_⟩
              have := List.nodup_cons.mp hnd2
              have h2 := List.nodup_cons.mp this.2
              exact List.nodup_cons.mpr
                ⟨fun hc => this.1 (List.mem_cons_of_mem _ hc), h2.2⟩
          · have hne : ¬ s.exist_session = some u0 := by
              rw [hex]; intro hc
              exact h0 (by cases hc; rfl)
            have hev : evictOnce s =
                { s with session_uuids := rest,
                         session_list := { s.session_list with
                            records := alErase s.session_list.records u0 } } := by
              simp [evictOnce, hu, hne]
            rw [hev]
            have hmr : u ∈ rest := by
              rw [hu] at hm
              cases List.mem_cons.mp hm with
              | inl hc => exact absurd hc h0
              | inr hr2 => exact hr2
            have hnd2 := List.nodup_cons.mp (hu ▸ hnd)
            refine ⟨hex, hmr, alGet_erase_ne _ u0 u h0, hnd2.2⟩
      obtain ⟨he1, he2, he3, he4⟩ := hstep
      have hrec := ih (evictOnce s) u he1 he2 he4
      simp only [checkSessionLimitGo, if_pos hlen]
      exact ⟨hrec.1, hrec.2.1, hrec.2.2.1.trans he3, hrec.2.2.2⟩
    · have hle : s.session_uuids.length ≤ MAX_SESSIONS := Nat.not_lt.mp hlen
      rw [cslGo_of_le (m + 1) s hle]
      exact ⟨hex, hm, rfl, hnd⟩

theorem wf_set_record (s : SMState) (uuid : String) (r2 : SessionRecord)
    (wf : WF s) (hm : uuid ∈ keysOf s) :
    WF { s with session_list := { s.session_list with
        records := alInsert s.session_list.records uuid r2 } } := by
  have hknd : (keysOf s).Nodup := wf.perm.nodup_iff.mpr wf.nodup
  have hp : ((alInsert s.session_list.records uuid r2).map Prod.fst).Perm (keysOf s) :=
    keys_alInsert_perm_of_mem _ uuid r2 hknd hm
  exact { nodup := wf.nodup, perm := hp.trans wf.perm, bound := wf.bound,
          exist_mem := wf.exist_mem }

theorem wf_clear_if (s : SMState) (uuid : String) (wf : WF s) :
    WF (if s.exist_session = some uuid then
          { s with exist_session := none, last_runned_session := some uuid }
        else s) := by
  by_cases h : s.exist_session = some uuid
  · rw [if_pos h]
    exact { nodup := wf.nodup, perm := wf.perm, bound := wf.bound,
            exist_mem := fun u hu => by cases hu }
  · rw [if_neg h]; exact wf

theorem wf_end_session (s : SMState) (uuid result : String) (wf : WF s) :
    WF (end_session s uuid result) := by
  unfold end_session
  cases hget : alGet s.session_list.records uuid with
  | none => exact wf_clear_if s uuid wf
  | some r =>
    have hm : uuid ∈ keysOf s := by
      have := (alGet_isSome_iff s.session_list.records uuid).mp (by rw [hget]; rfl)
      exact this
    exact wf_clear_if _ uuid (wf_set_record s uuid _ wf hm)

theorem wf_end_resp (s : SMState) (uuid : String) (r : EVResponse) (wf : WF s) :
    WF (end_session_with_ease_voice_response s uuid r) := by
  unfold end_session_with_ease_voice_response
  cases hget : alGet s.session_list.records uuid with
  | none => exact wf_clear_if s uuid wf
  | some rec0 =>
    have hm : uuid ∈ keysOf s :=
      (alGet_isSome_iff s.session_list.records uuid).mp (by rw [hget]; rfl)
    exact wf_clear_if _ uuid (wf_set_record s uuid _ wf hm)

theorem wf_fail_session (s : SMState) (uuid error : String) (wf : WF s) :
    WF (fail_session s uuid error) := by
  unfold fail_session
  cases hget : alGet s.session_list.records uuid with
  | none => exact wf_clear_if s uuid wf
  | some r =>
    have hm : uuid ∈ keysOf s :=
      (alGet_isSome_iff s.session_list.records uuid).mp (by rw [hget]; rfl)
    exact wf_clear_if _ uuid (wf_set_record s uuid _ wf hm)

theorem wf_update_info (s : SMState) (uuid : String)
    (info : List (String × String)) (s1 : SMState) (wf : WF s)
    (h : update_session_info s uuid info = .ok s1) : WF s1 := by
  unfold update_session_info at h
  cases hget : alGet s.session_list.records uuid with
  | none => rw [hget] at h; cases h
  | some r =>
    rw [hget] at h
    have hm : uuid ∈ keysOf s :=
      (alGet_isSome_iff s.session_list.records uuid).mp (by rw [hget]; rfl)
    cases h
    exact wf_set_record s uuid _ wf hm

theorem wf_update_loss (s : SMState) (uuid : String) (l : Int) (s1 : SMState)
    (wf : WF s) (h : update_session_loss s uuid l = .ok s1) : WF s1 := by
  unfold update_session_loss at h
  cases hget : alGet s.session_list.records uuid with
  | none => rw [hget] at h; cases h
  | some r =>
    rw [hget] at h
    have hm : uuid ∈ keysOf s :=
      (alGet_isSome_iff s.session_list.records uuid).mp (by rw [hget]; rfl)
    cases h
    exact wf_set_record s uuid _ wf hm

theorem wf_commitStart (s : SMState) (uuid task_name : String)
    (request : Option (List (String × String))) (now : String) (wf : WF s)
    (hex : s.exist_session = none) (hf : uuid ∉ s.session_uuids) :
    WF (commitStart s uuid task_name request now) := by
  have hfk : uuid ∉ keysOf s := fun hc => hf (wf.perm.mem_iff.mp hc)
  set rec0 : SessionRecord :=
    { uuid := uuid, task_name := task_name, request := request,
      status := .running, created_at := now, error := none } with hrec
  set s1 : SMState := { s with
    session_list := { s.session_list with
      records := alInsert s.session_list.records uuid rec0 },
    session_uuids := s.session_uuids ++ [uuid] } with hs1
  have hcommit : commitStart s uuid task_name request now =
      { check_session_limit s1 with exist_session := some uuid } := rfl
  have hkeys1 : keysOf s1 = keysOf s ++ [uuid] := by
    simp only [hs1, keysOf]
    exact keys_alInsert_of_not_mem s.session_list.records uuid rec0 hfk
  have hperm1 : (keysOf s1).Perm s1.session_uuids := by
    rw [hkeys1]
    exact wf.perm.append (List.Perm.refl [uuid])
  have hnodup1 : s1.session_uuids.Nodup := by
    have hcons : (uuid :: s.session_uuids).Nodup :=
      List.nodup_cons.mpr ⟨hf, wf.nodup⟩
    exact (List.perm_append_singleton uuid s.session_uuids).symm.nodup hcons
  have hlen1 : s1.session_uuids.length = s.session_uuids.length + 1 := by
    simp [hs1]
  have hex1 : s1.exist_session = none := hex
  have hmemu : uuid ∈ s1.session_uuids := by simp [hs1]
  by_cases hb : s1.session_uuids.length ≤ MAX_SESSIONS
  · have hcsl : check_session_limit s1 = s1 := check_session_limit_of_le s1 hb
    rw [hcommit, hcsl]
    exact { nodup := hnodup1, perm := hperm1, bound := hb,
            exist_mem := fun u hu => by
              have : uuid = u := by cases hu; rfl
              exact this ▸ hmemu }
  · have hbnd := wf.bound
    have h11 : s1.session_uuids.length = MAX_SESSIONS + 1 := by omega
    have hcsl : check_session_limit s1 = evictOnce s1 :=
      check_session_limit_eleven_none s1 hex1 h11
    have hslen : s.session_uuids.length = MAX_SESSIONS := by omega
    obtain ⟨x0, xs, hxu⟩ : ∃ x0 xs, s.session_uuids = x0 :: xs := by
      cases hu : s.session_uuids with
      | nil =>
        rw [hu] at hslen
        simp [MAX_SESSIONS] at hslen
      | cons a t => exact ⟨a, t, rfl⟩
    have hu1 : s1.session_uuids = x0 :: (xs ++ [uuid]) := by
      simp [hs1, hxu]
    have hev : evictOnce s1 =
        { s1 with session_uuids := xs ++ [uuid],
                  session_list := { s1.session_list with
                     records := alErase s1.session_list.records x0 } } :=
      evictOnce_of_none s1 x0 (xs ++ [uuid]) hex1 hu1
    have hknd1 : (keysOf s1).Nodup := hperm1.nodup_iff.mpr hnodup1
    have hkeys2 : (alErase s1.session_list.records x0).map Prod.fst =
        (keysOf s1).erase x0 :=
      keys_alErase_of_nodup s1.session_list.records x0 hknd1
    have hperm2 : ((alErase s1.session_list.records x0).map Prod.fst).Perm
        (xs ++ [uuid]) := by
      rw [hkeys2]
      have := hperm1.erase x0
      rw [hu1, List.erase_cons_head] at this
      exact this
    have hnd2 : (xs ++ [uuid]).Nodup := by
      rw [hu1] at hnodup1
      exact (List.nodup_cons.mp hnodup1).2
    have hbound2 : (xs ++ [uuid]).length ≤ MAX_SESSIONS := by
      have : s1.session_uuids.length = (xs ++ [uuid]).length + 1 := by
        rw [hu1]; simp
      omega
    rw [hcommit, hcsl, hev]
    exact { nodup := hnd2, perm := hperm2, bound := hbound2,
            exist_mem := fun u hu => by
              have : uuid = u := by cases hu; rfl
              subst this
              simp }

/-- Every reachable manager state is well-formed. -/
theorem reachable_wf (s : SMState) (h : Reachable s) : WF s := by
  induction h with
  | init =>
    exact { nodup := List.nodup_nil, perm := List.Perm.refl _,
            bound := by simp [initState, MAX_SESSIONS],
            exist_mem := fun u hu => by cases hu }
  | start s uuid tn req now _ hex hf ih => exact wf_commitStart s uuid tn req now ih hex hf
  | endS s uuid result _ ih => exact wf_end_session s uuid result ih
  | endR s uuid r _ ih => exact wf_end_resp s uuid r ih
  | failS s uuid e _ ih => exact wf_fail_session s uuid e ih
  | updInfo s uuid info s1 _ hok ih => exact wf_update_info s uuid info s1 ih hok
  | updLoss s uuid l s1 _ hok ih => exact wf_update_loss s uuid l s1 ih hok
  | getInfo s m _ ih =>
    exact { nodup := ih.nodup, perm := ih.perm, bound := ih.bound,
            exist_mem := ih.exist_mem }
  | addTask s uuid t _ ih =>
    exact { nodup := ih.nodup, perm := ih.perm, bound := ih.bound,
            exist_mem := ih.exist_mem }
  | remTask s uuid s1 _ hok ih =>
    unfold remove_session_task at hok
    cases hget : alGet s.session_task uuid with
    | none => rw [hget] at hok; cases hok
    | some t =>
      rw [hget] at hok
      cases hok
      exact { nodup := ih.nodup, perm := ih.perm, bound := ih.bound,
              exist_mem := ih.exist_mem }
  | addSub s uuid pid _ ih =>
    exact { nodup := ih.nodup, perm := ih.perm, bound := ih.bound,
            exist_mem := ih.exist_mem }
  | remSub s uuid _ ih =>
    unfold remove_session_subprocess
    by_cases hc : (alGet s.session_subprocess uuid).isSome
    · rw [if_pos hc]
      exact { nodup := ih.nodup, perm := ih.perm, bound := ih.bound,
              exist_mem := ih.exist_mem }
    · rw [if_neg hc]; exact ih

/- Helper lemmas for the claim theorems. -/

theorem check_session_limit_eq_evictOnce (s : SMState)
    (hl : s.session_uuids.length = MAX_SESSIONS + 1)
    (hl2 : (evictOnce s).session_uuids.length ≤ MAX_SESSIONS) :
    check_session_limit s = evictOnce s := by
  have hgt : s.session_uuids.length > MAX_SESSIONS := by omega
  unfold check_session_limit
  rw [hl]
  have h1 : checkSessionLimitGo (MAX_SESSIONS + 1) s =
      if s.session_uuids.length > MAX_SESSIONS then
        checkSessionLimitGo MAX_SESSIONS (evictOnce s)
      else s := rfl
  rw [h1, if_pos hgt]
  exact cslGo_of_le MAX_SESSIONS (evictOnce s) hl2

/-- Successful admission stores the fresh Running record, keeps its uuid in
    the retained list, and leaves the current pointer on it, for any
    pre-state within capacity. -/
theorem commitStart_spec (s : SMState) (uuid task_name : String)
    (request : Option (List (String × String))) (now : String)
    (hex : s.exist_session = none) (hf : uuid ∉ s.session_uuids)
    (hb : s.session_uuids.length ≤ MAX_SESSIONS) :
    alGet (commitStart s uuid task_name request now).session_list.records uuid =
      some { uuid := uuid, task_name := task_name, request := request,
             status := .running, created_at := now, error := none } ∧
    uuid ∈ (commitStart s uuid task_name request now).session_uuids ∧
    (commitStart s uuid task_name request now).exist_session = some uuid := by
  set rec0 : SessionRecord :=
    { uuid := uuid, task_name := task_name, request := request,
      status := .running, created_at := now, error := none } with hrec
  set s1 : SMState := { s with
    session_list := { s.session_list with
      records := alInsert s.session_list.records uuid rec0 },
    session_uuids := s.session_uuids ++ [uuid] } with hs1
  have hcommit : commitStart s uuid task_name request now =
      { check_session_limit s1 with exist_session := some uuid } := rfl
  have hget1 : alGet s1.session_list.records uuid = some rec0 :=
    alGet_insert_self s.session_list.records uuid rec0
  have hex1 : s1.exist_session = none := hex
  have hlen1 : s1.session_uuids.length = s.session_uuids.length + 1 := by simp [hs1]
  by_cases hble : s1.session_uuids.length ≤ MAX_SESSIONS
  · have hcsl : check_session_limit s1 = s1 := check_session_limit_of_le s1 hble
    rw [hcommit, hcsl]
    exact ⟨hget1, by simp [hs1], rfl⟩
  · have h11 : s1.session_uuids.length = MAX_SESSIONS + 1 := by omega
    have hslen : s.session_uuids.length = MAX_SESSIONS := by omega
    obtain ⟨x0, xs, hxu⟩ : ∃ x0 xs, s.session_uuids = x0 :: xs := by
      cases hu : s.session_uuids with
      | nil => rw [hu] at hslen; simp [MAX_SESSIONS] at hslen
      | cons a t => exact ⟨a, t, rfl⟩
    have hu1 : s1.session_uuids = x0 :: (xs ++ [uuid]) := by simp [hs1, hxu]
    have hev : evictOnce s1 =
        { s1 with session_uuids := xs ++ [uuid],
                  session_list := { s1.session_list with
                     records := alErase s1.session_list.records x0 } } :=
      evictOnce_of_none s1 x0 (xs ++ [uuid]) hex1 hu1
    have hlen2 : (evictOnce s1).session_uuids.length ≤ MAX_SESSIONS := by
      rw [hev]
      have hxs : xs.length + 1 = MAX_SESSIONS := by
        rw [hxu] at hslen
        simpa using hslen
      show (xs ++ [uuid]).length ≤ MAX_SESSIONS
      simp only [List.length_append, List.length_cons, List.length_nil]
      omega
    have hcsl : check_session_limit s1 = evictOnce s1 :=
      check_session_limit_eq_evictOnce s1 h11 hlen2
    have hx0 : uuid ≠ x0 := by
      intro hc
      exact hf (hc ▸ (hxu ▸ List.mem_cons_self x0 xs))
    rw [hcommit, hcsl, hev]
    refine ⟨?_, by simp, rfl⟩
    simpa using (alGet_erase_ne s1.session_list.records x0 uuid hx0).trans hget1

theorem end_session_records (s : SMState) (u result : String) (r : SessionRecord)
    (hget : alGet s.session_list.records u = some r) :
    (end_session s u result).session_list.records =
      alInsert s.session_list.records u
        { r with status := .completed, result := some result } := by
  unfold end_session
  rw [hget]
  by_cases h : s.exist_session = some u
  · simp [h]
  · simp [h]

theorem fail_session_records (s : SMState) (u error : String) (r : SessionRecord)
    (hget : alGet s.session_list.records u = some r) :
    (fail_session s u error).session_list.records =
      alInsert s.session_list.records u
        { r with status := .failed, error := some error } := by
  unfold fail_session
  rw [hget]
  by_cases h : s.exist_session = some u
  · simp [h]
  · simp [h]

theorem remove_session_subprocess_frame (s : SMState) (u : String) :
    (remove_session_subprocess s u).session_list = s.session_list ∧
    (remove_session_subprocess s u).exist_session = s.exist_session ∧
    alGet (remove_session_subprocess s u).session_subprocess u = none := by
  unfold remove_session_subprocess
  by_cases h : (alGet s.session_subprocess u).isSome
  · rw [if_pos h]
    exact ⟨rfl, rfl, alGet_erase_self s.session_subprocess u⟩
  · rw [if_neg h]
    exact ⟨rfl, rfl, Option.not_isSome_iff_eq_none.mp h⟩

theorem update_session_loss_ok (s : SMState) (u : String) (l : Int)
    (r : SessionRecord) (hget : alGet s.session_list.records u = some r) :
    update_session_loss s u l =
      .ok { s with session_list := { s.session_list with
          records := alInsert s.session_list.records u
            { r with losses := lossStep r.losses l } } } := by
  unfold update_session_loss
  rw [hget]
  simp [lossStep]

theorem lossStep_length (ls : List Int) (l : Int)
    (h : ls.length ≤ MAX_LOSS) : (lossStep ls l).length ≤ MAX_LOSS := by
  unfold lossStep
  by_cases hgt : (ls ++ [l]).length > MAX_LOSS
  · rw [if_pos hgt]
    simp at hgt ⊢
    omega
  · rw [if_neg hgt]
    omega

theorem appendLosses_track (u : String) (ls : List Int) :
    ∀ s r, alGet s.session_list.records u = some r →
    ∃ s2, appendLosses s u ls = .ok s2 ∧
      lossesAt s2 u = some (ls.foldl lossStep r.losses) := by
  induction ls with
  | nil =>
    intro s r hget
    exact ⟨s, rfl, by simp [lossesAt, hget]⟩
  | cons l rest ih =>
    intro s r hget
    have hok := update_session_loss_ok s u l r hget
    set s1 : SMState := { s with session_list := { s.session_list with
        records := alInsert s.session_list.records u
          { r with losses := lossStep r.losses l } } } with hs1
    have hget1 : alGet s1.session_list.records u =
        some { r with losses := lossStep r.losses l } :=
      alGet_insert_self s.session_list.records u _
    obtain ⟨s2, hrun, hloss⟩ := ih s1 _ hget1
    refine ⟨s2, ?_, ?_⟩
    · unfold appendLosses
      rw [hok]
      exact hrun
    · simpa using hloss

theorem read_data_until (pre : List ConnectorData) (d : ConnectorData)
    (post : List ConnectorData) (hpre : ∀ x ∈ pre, isResp x = false)
    (hd : isResp d = true) :
    read_data (pre ++ d :: post) = pre ++ [d] := by
  induction pre with
  | nil => simp [read_data, hd]
  | cons p t ih =>
    have hp : isResp p = false := hpre p (List.mem_cons_self p t)
    have ht : ∀ x ∈ t, isResp x = false :=
      fun x hx => hpre x (List.mem_cons_of_mem p hx)
    simp [read_data, hp, ih ht]

theorem read_data_all (stream : List ConnectorData)
    (h : ∀ x ∈ stream, isResp x = false) : read_data stream = stream := by
  induction stream with
  | nil => rfl
  | cons p t ih =>
    have hp : isResp p = false := h p (List.mem_cons_self p t)
    have ht : ∀ x ∈ t, isResp x = false :=
      fun x hx => h x (List.mem_cons_of_mem p hx)
    simp [read_data, hp, ih ht]

/- Claim theorems. -/

/-- C1: `start_session` rejects with the already-running error when a job is
    currently running, leaving the registry, uuid list and current/last
    pointers unchanged (no partial record stored); otherwise it stores a
    Running record under the uuid, keeps the uuid in the retained registry
    list, applies the eviction policy, and sets the current-session pointer
    to the new uuid. The freshness and capacity hypotheses hold on every
    reachable state (job ids are caller-assigned unique tokens). -/
theorem C1_start_session_admission (s : SMState) (uuid task_name : String)
    (request : Option (List (String × String))) (now : String) :
    (s.exist_session.isSome →
      start_session s uuid task_name request now =
        .error "A task is already running. Cannot submit another task!" ∧
      start_session_state s uuid task_name request now = s) ∧
    (s.exist_session = none → uuid ∉ s.session_uuids →
      s.session_uuids.length ≤ MAX_SESSIONS →
      start_session s uuid task_name request now =
        .ok (commitStart s uuid task_name request now) ∧
      alGet (commitStart s uuid task_name request now).session_list.records uuid =
        some { uuid := uuid, task_name := task_name, request := request,
               status := .running, created_at := now, error := none } ∧
      uuid ∈ (commitStart s uuid task_name request now).session_uuids ∧
      (commitStart s uuid task_name request now).exist_session = some uuid) := by
  constructor
  · intro h
    have herr : start_session s uuid task_name request now =
        .error "A task is already running. Cannot submit another task!" := by
      unfold start_session
      rw [if_pos h]
    refine ⟨herr, ?_⟩
    unfold start_session_state
    rw [herr]
  · intro hex hf hb
    have hok : start_session s uuid task_name request now =
        .ok (commitStart s uuid task_name request now) := by
      unfold start_session
      rw [if_neg (by rw [hex]; simp)]
    obtain ⟨h1, h2, h3⟩ := commitStart_spec s uuid task_name request now hex hf hb
    exact ⟨hok, h1, h2, h3⟩

/-- C1 witness: a busy manager rejects the call; the fresh manager admits
    job "a" and points the current pointer at it. -/
theorem C1_witness :
    start_session { initState with exist_session := some "z" } "a" "train" none "t0" =
      .error "A task is already running. Cannot submit another task!" ∧
    start_session initState "a" "train" none "t0" =
      .ok (commitStart initState "a" "train" none "t0") ∧
    (commitStart initState "a" "train" none "t0").exist_session = some "a" :=
  ⟨((C1_start_session_admission { initState with exist_session := some "z" }
      "a" "train" none "t0").1 (by decide)).1,
   ((C1_start_session_admission initState "a" "train" none "t0").2 rfl
      (by simp [initState]) (by decide)).1,
   ((C1_start_session_admission initState "a" "train" none "t0").2 rfl
      (by simp [initState]) (by decide)).2.2.2⟩

/-- C2 counterexample: terminal state is not monotonic — after `fail_session`
    marks job "a" Failed, a later `end_session` call on the same record
    overwrites the stored status to Completed, so the outcome of the first
    finalizer is overwritten. -/
theorem C2_counterexample :
    statusAt (fail_session (commitStart initState "a" "train" none "t0")
      "a" "boom") "a" = some Status.failed ∧
    statusAt (end_session
        (fail_session (commitStart initState "a" "train" none "t0") "a" "boom")
        "a" "done") "a" = some Status.completed :=
  ⟨rfl, rfl⟩

/-- C2 amended: finalizers overwrite unconditionally — whenever a record with
    the given uuid exists, `end_session` sets its status to Completed and
    `fail_session` sets it to Failed, regardless of any previously recorded
    terminal status (the last finalizer wins; only presence of the id is
    checked). -/
theorem C2_finalizers_overwrite (s : SMState) (u result error : String)
    (r : SessionRecord) (hget : alGet s.session_list.records u = some r) :
    statusAt (end_session s u result) u = some Status.completed ∧
    statusAt (fail_session s u error) u = some Status.failed := by
  constructor
  · unfold statusAt
    rw [end_session_records s u result r hget, alGet_insert_self]
    rfl
  · unfold statusAt
    rw [fail_session_records s u error r hget, alGet_insert_self]
    rfl

/-- C2 witness: on the record stored for job "a", `end_session` yields
    Completed and `fail_session` yields Failed. -/
theorem C2_witness :
    statusAt (end_session (commitStart initState "a" "train" none "t0")
      "a" "done") "a" = some Status.completed ∧
    statusAt (fail_session (commitStart initState "a" "train" none "t0")
      "a" "oops") "a" = some Status.failed :=
  C2_finalizers_overwrite (commitStart initState "a" "train" none "t0")
    "a" "done" "oops"
    { uuid := "a", task_name := "train", request := none,
      status := .running, created_at := "t0", error := none }
    (by decide)

/-- C3 counterexample: a work callable that returns normally without emitting
    any finalize leaves the record of job "a" in Running state (and the
    current pointer set) after the wrapper, including its guaranteed-cleanup
    block, has completed — no Session Store finalize is triggered on the
    normal-return path. -/
theorem C3_counterexample :
    statusAt (wrapper "a" (fun st => (st, none))
      (commitStart initState "a" "train" none "t0")) "a" = some Status.running ∧
    (wrapper "a" (fun st => (st, none))
      (commitStart initState "a" "train" none "t0")).exist_session = some "a" :=
  ⟨rfl, rfl⟩

/-- C3 amended: when the work callable raises, the wrapper performs exactly
    one finalize — `fail_session`, invoked from its except block (not from
    the cleanup block) — marking the record Failed; the guaranteed-cleanup
    block only removes the subprocess handle, so no handle remains on any
    exit path; on normal return the wrapper itself performs no finalize and
    finalization is left to the work callable. -/
theorem C3_wrapper_failure_path (s s1 : SMState) (u e : String)
    (func : SMState → SMState × Option String) (r : SessionRecord)
    (hrun : func s = (s1, some e))
    (hget : alGet s1.session_list.records u = some r) :
    statusAt (wrapper u func s) u = some Status.failed ∧
    alGet (wrapper u func s).session_subprocess u = none := by
  have hw : wrapper u func s = remove_session_subprocess (fail_session s1 u e) u := by
    unfold wrapper
    rw [hrun]
  obtain ⟨hframe, _, hsub⟩ := remove_session_subprocess_frame (fail_session s1 u e) u
  constructor
  · rw [hw]
    unfold statusAt
    rw [hframe, fail_session_records s1 u e r hget, alGet_insert_self]
    rfl
  · rw [hw]
    exact hsub

/-- C3 witness: a raising work callable leaves job "a" Failed with no
    subprocess handle registered under "a". -/
theorem C3_witness :
    statusAt (wrapper "a" (fun st => (st, some "boom"))
      (commitStart initState "a" "train" none "t0")) "a" = some Status.failed ∧
    alGet (wrapper "a" (fun st => (st, some "boom"))
      (commitStart initState "a" "train" none "t0")).session_subprocess "a" = none :=
  C3_wrapper_failure_path (commitStart initState "a" "train" none "t0")
    (commitStart initState "a" "train" none "t0") "a" "boom"
    (fun st => (st, some "boom"))
    { uuid := "a", task_name := "train", request := none,
      status := .running, created_at := "t0", error := none }
    rfl (by decide)

/-- C4: on every reachable state the registry retains at most 10 records and
    at most 10 uuids; the eviction loop never removes the currently running
    record (for any duplicate-free state, even mid-operation); and at the
    overflow size (11) the loop evicts exactly the oldest record, except the
    next-oldest when the oldest is the running one. -/
theorem C4_capacity_and_eviction :
    (∀ s, Reachable s →
      s.session_list.records.length ≤ MAX_SESSIONS ∧
      s.session_uuids.length ≤ MAX_SESSIONS) ∧
    (∀ s u, s.exist_session = some u → u ∈ s.session_uuids →
      s.session_uuids.Nodup →
      u ∈ (check_session_limit s).session_uuids ∧
      alGet (check_session_limit s).session_list.records u =
        alGet s.session_list.records u) ∧
    (∀ s u0 u1 rest, s.session_uuids = u0 :: u1 :: rest →
      s.session_uuids.length = MAX_SESSIONS + 1 →
      (s.exist_session = some u0 →
        (check_session_limit s).session_uuids = u0 :: rest ∧
        (check_session_limit s).session_list.records =
          alErase s.session_list.records u1) ∧
      (s.exist_session ≠ some u0 →
        (check_session_limit s).session_uuids = u1 :: rest ∧
        (check_session_limit s).session_list.records =
          alErase s.session_list.records u0)) := by
  refine ⟨?_, ?_, ?_⟩
  · intro s hr
    have wf := reachable_wf s hr
    have hlen : s.session_list.records.length = s.session_uuids.length := by
      have h := wf.perm.length_eq
      simpa [keysOf] using h
    exact ⟨by rw [hlen]; exact wf.bound, wf.bound⟩
  · intro s u hex hm hnd
    have h := cslGo_preserves_running s.session_uuids.length s u hex hm hnd
    exact ⟨h.2.1, h.2.2.1⟩
  · intro s u0 u1 rest hu hl
    have hrl : rest.length + 1 = MAX_SESSIONS := by
      rw [hu] at hl
      simp at hl
      omega
    constructor
    · intro hex
      have hev : evictOnce s =
          { s with session_uuids := u0 :: rest,
                   session_list := { s.session_list with
                      records := alErase s.session_list.records u1 } } := by
        simp [evictOnce, hu, hex]
      have hlen2 : (evictOnce s).session_uuids.length ≤ MAX_SESSIONS := by
        rw [hev]
        show (u0 :: rest).length ≤ MAX_SESSIONS
        simp
        omega
      rw [check_session_limit_eq_evictOnce s hl hlen2, hev]
      exact ⟨rfl, rfl⟩
    · intro hex
      have hev : evictOnce s =
          { s with session_uuids := u1 :: rest,
                   session_list := { s.session_list with
                      records := alErase s.session_list.records u0 } } := by
        simp [evictOnce, hu, hex]
      have hlen2 : (evictOnce s).session_uuids.length ≤ MAX_SESSIONS := by
        rw [hev]
        show (u1 :: rest).length ≤ MAX_SESSIONS
        simp
        omega
      rw [check_session_limit_eq_evictOnce s hl hlen2, hev]
      exact ⟨rfl, rfl⟩

/-- C4 witness: the bound at the initial state; running-record preservation on
    a small concrete state; and both eviction branches on concrete
    11-element registries. -/
theorem C4_witness :
    (initState.session_list.records.length ≤ MAX_SESSIONS ∧
     initState.session_uuids.length ≤ MAX_SESSIONS) ∧
    ("a" ∈ (check_session_limit
      ⟨⟨[("a", ⟨"a", "train", none, .running, "t0", none, none, none, [], [], []⟩)],
        none⟩, ["a"], [], [], some "a", none⟩).session_uuids) ∧
    ((check_session_limit
      ⟨⟨[], none⟩, ["a", "b", "c", "d", "e", "f", "g", "h", "i", "j", "k"],
        [], [], some "a", none⟩).session_uuids =
      "a" :: ["c", "d", "e", "f", "g", "h", "i", "j", "k"]) ∧
    ((check_session_limit
      ⟨⟨[], none⟩, ["a", "b", "c", "d", "e", "f", "g", "h", "i", "j", "k"],
        [], [], none, none⟩).session_uuids =
      "b" :: ["c", "d", "e", "f", "g", "h", "i", "j", "k"]) :=
  ⟨C4_capacity_and_eviction.1 initState Reachable.init,
   (C4_capacity_and_eviction.2.1
      ⟨⟨[("a", ⟨"a", "train", none, .running, "t0", none, none, none, [], [], []⟩)],
        none⟩, ["a"], [], [], some "a", none⟩
      "a" rfl (by decide) (by decide)).1,
   ((C4_capacity_and_eviction.2.2
      ⟨⟨[], none⟩, ["a", "b", "c", "d", "e", "f", "g", "h", "i", "j", "k"],
        [], [], some "a", none⟩
      "a" "b" ["c", "d", "e", "f", "g", "h", "i", "j", "k"] rfl (by decide)).1 rfl).1,
   ((C4_capacity_and_eviction.2.2
      ⟨⟨[], none⟩, ["a", "b", "c", "d", "e", "f", "g", "h", "i", "j", "k"],
        [], [], none, none⟩
      "a" "b" ["c", "d", "e", "f", "g", "h", "i", "j", "k"] rfl (by decide)).2
      (by decide)).1⟩

/-- C5 counterexample: `get_session_info` persists the live metrics into the
    registry itself — after one call on a registry that had no metrics entry,
    the stored `session_list` permanently carries the monitor_metrics entry,
    and the returned mapping is exactly that stored registry rather than a
    detached copy. -/
theorem C5_counterexample :
    (commitStart initState "a" "train" none "t0").session_list.metricsEntry = none ∧
    ((get_session_info (commitStart initState "a" "train" none "t0")
        { cpu_percentage := "1%" }).2).session_list.metricsEntry =
      some { cpu_percentage := "1%" } ∧
    (get_session_info (commitStart initState "a" "train" none "t0")
        { cpu_percentage := "1%" }).1 =
      ((get_session_info (commitStart initState "a" "train" none "t0")
        { cpu_percentage := "1%" }).2).session_list :=
  ⟨rfl, rfl, rfl⟩

/-- C5 amended: `get_session_info` merges the live metrics into the registry
    under the reserved monitor_metrics key — persisting that entry in the
    registry — and returns the updated registry itself; the metrics are
    never written into any individual job record (the record entries, the
    uuid list and the pointers are unchanged). -/
theorem C5_snapshot_persists_metrics (s : SMState) (m : MonitorMetrics) :
    (get_session_info s m).1 = ((get_session_info s m).2).session_list ∧
    ((get_session_info s m).2).session_list.metricsEntry = some m ∧
    ((get_session_info s m).2).session_list.records = s.session_list.records ∧
    ((get_session_info s m).2).session_uuids = s.session_uuids ∧
    ((get_session_info s m).2).exist_session = s.exist_session ∧
    ((get_session_info s m).2).last_runned_session = s.last_runned_session :=
  ⟨rfl, rfl, rfl, rfl, rfl, rfl⟩

/-- C6: stopping an unknown job id crashes instead of returning a failure
    outcome — `async_stop_session("x", "train")` on a fresh manager reaches
    `remove_session_task`, whose `session_task.pop(uuid)` has no default and
    raises `KeyError: x`, contradicting the no-throw stop policy. -/
theorem C6_stop_unknown_id_raises :
    async_stop_session initState { cpu_percentage := "0%" } "x" "train" =
      .error ("KeyError: " ++ "x") :=
  rfl

/-- C7: `update_session_loss` appends the new sample and, past the capacity
    of 50, drops the oldest sample first, keeping the history length at most
    50; appending samples 1..55 to a fresh running job leaves exactly the 50
    entries 6..55 in original order. -/
theorem C7_loss_history_bounded_fifo :
    (∀ s u l r, alGet s.session_list.records u = some r →
      r.losses.length ≤ MAX_LOSS →
      ∃ s2, update_session_loss s u l = .ok s2 ∧
        lossesAt s2 u = some (lossStep r.losses l) ∧
        (lossStep r.losses l).length ≤ MAX_LOSS) ∧
    (∃ s2, appendLosses (commitStart initState "a" "train" none "t0") "a"
        ((List.range 55).map (fun i => (i : Int) + 1)) = .ok s2 ∧
      lossesAt s2 "a" = some ((List.range 50).map (fun i => (i : Int) + 6))) := by
  constructor
  · intro s u l r hget hlen
    refine ⟨_, update_session_loss_ok s u l r hget, ?_,
      lossStep_length r.losses l hlen⟩
    simp [lossesAt, alGet_insert_self]
  · have hget : alGet (commitStart initState "a" "train" none
        "t0").session_list.records "a" =
        some { uuid := "a", task_name := "train", request := none,
               status := .running, created_at := "t0", error := none } := by
      decide
    obtain ⟨s2, hrun, hloss⟩ := appendLosses_track "a"
      ((List.range 55).map (fun i => (i : Int) + 1)) _ _ hget
    refine ⟨s2, hrun, ?_⟩
    rw [hloss]
    have hfold : ((List.range 55).map (fun i => (i : Int) + 1)).foldl lossStep
        ([] : List Int) = (List.range 50).map (fun i => (i : Int) + 6) := by
      decide
    exact congrArg some hfold

/-- C7 witness: one concrete append on the fresh record of job "a". -/
theorem C7_witness :
    ∃ s2, update_session_loss (commitStart initState "a" "train" none "t0")
        "a" 5 = .ok s2 ∧
      lossesAt s2 "a" = some (lossStep [] 5) ∧
      (lossStep ([] : List Int) 5).length ≤ MAX_LOSS :=
  C7_loss_history_bounded_fifo.1 (commitStart initState "a" "train" none "t0")
    "a" 5
    { uuid := "a", task_name := "train", request := none,
      status := .running, created_at := "t0", error := none }
    (by decide) (by decide)

/-- C8: the Progress Ingestor consumes its source sequentially and stops at
    the first final-response message (or at stream close when none occurs):
    messages after the first final-response are never routed to any Session
    Store mutation, so the resulting manager state is independent of them. -/
theorem C8_ingestor_stops_at_first_response :
    (∀ s uid pid (pre : List ConnectorData) d post,
      (∀ x ∈ pre, isResp x = false) → isResp d = true →
      start_task_with_subprocess s uid pid (pre ++ d :: post) =
        start_task_with_subprocess s uid pid (pre ++ [d])) ∧
    (∀ stream, (∀ x ∈ stream, isResp x = false) → read_data stream = stream) := by
  constructor
  · intro s uid pid pre d post hpre hd
    unfold start_task_with_subprocess
    rw [read_data_until pre d post hpre hd, read_data_until pre d [] hpre hd]
  · exact read_data_all

/-- C8 witness: a loss message, a final response, then a trailing loss
    message — the trailing message does not affect the outcome; a stream
    with no final response is consumed to its end. -/
theorem C8_witness :
    start_task_with_subprocess (commitStart initState "a" "train" none "t0")
        "a" 7 [ConnectorData.loss 1,
               ConnectorData.resp { status := .success, message := "ok" },
               ConnectorData.loss 2] =
      start_task_with_subprocess (commitStart initState "a" "train" none "t0")
        "a" 7 [ConnectorData.loss 1,
               ConnectorData.resp { status := .success, message := "ok" }] ∧
    read_data [ConnectorData.loss 3] = [ConnectorData.loss 3] :=
  ⟨C8_ingestor_stops_at_first_response.1
      (commitStart initState "a" "train" none "t0") "a" 7
      [ConnectorData.loss 1] (ConnectorData.resp { status := .success, message := "ok" })
      [ConnectorData.loss 2] (by decide) (by decide),
   C8_ingestor_stops_at_first_response.2 [ConnectorData.loss 3] (by decide)⟩

/-- C9: admission is not atomic — `start_session` takes no lock (the class
    lock guards only singleton construction), so the interleaving in which
    both threads pass the exist_session check before either commits lets
    both admissions succeed, leaving two Running records; only fully
    serialized calls reject the second attempt. -/
theorem C9_unsynchronized_admission :
    (runRace ⟨⟨"a", "train", none, "t0", false, none⟩,
              ⟨"b", "train", none, "t0", false, none⟩, initState⟩
       [true, false, true, false]).t1.result = some true ∧
    (runRace ⟨⟨"a", "train", none, "t0", false, none⟩,
              ⟨"b", "train", none, "t0", false, none⟩, initState⟩
       [true, false, true, false]).t2.result = some true ∧
    statusAt (runRace ⟨⟨"a", "train", none, "t0", false, none⟩,
              ⟨"b", "train", none, "t0", false, none⟩, initState⟩
       [true, false, true, false]).state "a" = some Status.running ∧
    statusAt (runRace ⟨⟨"a", "train", none, "t0", false, none⟩,
              ⟨"b", "train", none, "t0", false, none⟩, initState⟩
       [true, false, true, false]).state "b" = some Status.running ∧
    (runRace ⟨⟨"a", "train", none, "t0", false, none⟩,
              ⟨"b", "train", none, "t0", false, none⟩, initState⟩
       [true, true, false]).t2.result = some false :=
  ⟨rfl, rfl, rfl, rfl, rfl⟩

/-- C10: on every reachable state, a non-empty current-session pointer names
    a stored record — eviction only runs inside `start_session` while the
    pointer is empty — so the running branch of `get_current_session_info`
    returns that record merged with the metrics, never the empty default. -/
theorem C10_current_pointer_names_record (s : SMState) (u : String)
    (m : MonitorMetrics) (hr : Reachable s) (hex : s.exist_session = some u) :
    ∃ r, alGet s.session_list.records u = some r ∧
      get_current_session_info s m =
        { monitor_metrics := some m, record := some r } := by
  have wf := reachable_wf s hr
  have hmem : u ∈ s.session_uuids := wf.exist_mem u hex
  have hkey : u ∈ keysOf s := wf.perm.mem_iff.mpr hmem
  have hsome : (alGet s.session_list.records u).isSome :=
    (alGet_isSome_iff s.session_list.records u).mpr hkey
  obtain ⟨r, hget⟩ := Option.isSome_iff_exists.mp hsome
  refine ⟨r, hget, ?_⟩
  simp [get_current_session_info, hex, hget]

/-- C10 witness: after admitting job "a" on the fresh manager, the current
    pointer names a stored record and the snapshot returns it. -/
theorem C10_witness :
    ∃ r, alGet (commitStart initState "a" "train" none
        "t0").session_list.records "a" = some r ∧
      get_current_session_info (commitStart initState "a" "train" none "t0")
        { cpu_percentage := "2%" } =
        { monitor_metrics := some { cpu_percentage := "2%" }, record := some r } :=
  C10_current_pointer_names_record (commitStart initState "a" "train" none "t0")
    "a" { cpu_percentage := "2%" }
    (Reachable.start initState "a" "train" none "t0" Reachable.init rfl
      (by simp [initState]))
    rfl
